import Mathlib

/-!
Shallow embedding of the P-256 group implementation (kyber `group/p256`) and its
vector-commitment consumer (`util/vc`), together with theorems settling the
specification claims about embedding, square roots, wire decoding, equality,
cloning, group identities and commitments.

Machine integers (`*big.Int`) are modelled as `Nat`/`Int`; a byte string is a
`List Nat` whose entries are below 256; a `cipher.Stream` keystream is a byte
function `Nat → Nat` together with a cursor position threaded explicitly.
-/

set_option maxRecDepth 16384

/-- Big-endian bytes to a natural number, as `big.Int.SetBytes`. -/
def beToNat (l : List Nat) : Nat := l.foldl (fun a b => a * 256 + b) 0

/-- Fuel-driven minimal big-endian byte encoding (helper for `natBytes`). -/
def natBytesAux : Nat → Nat → List Nat
  | 0, _ => []
  | fuel + 1, x => if x = 0 then [] else natBytesAux fuel (x / 256) ++ [x % 256]

/-- Minimal big-endian byte encoding of a natural number, as `big.Int.Bytes`. -/
def natBytes (x : Nat) : List Nat := natBytesAux x x

/-- Fuel-driven modular exponentiation by squaring (helper for `powMod`). -/
def powModAux : Nat → Nat → Nat → Nat → Nat
  | 0, _, _, m => 1 % m
  | fuel + 1, b, e, m =>
    if e = 0 then 1 % m
    else
      let r := powModAux fuel ((b * b) % m) (e / 2) m
      if e % 2 = 1 then (r * b) % m else r

/-- Modular exponentiation `b^e mod m`, as `big.Int.Exp` with a positive modulus. -/
def powMod (b e m : Nat) : Nat := powModAux e b e m

/-- Fuel-driven bit length (helper for `bitLen`). -/
def bitLenAux : Nat → Nat → Nat
  | 0, _ => 0
  | fuel + 1, n => if n = 0 then 0 else bitLenAux fuel (n / 2) + 1

/-- Bit length of a natural number, as `big.Int.BitLen`. -/
def bitLen (n : Nat) : Nat := bitLenAux n n

/-- The NIST P-256 prime modulus `p`. -/
def p256P : Nat :=
  115792089210356248762697446949407573530086143415290314195533631308867097853951

/-- The NIST P-256 group order `n`. -/
def p256N : Nat :=
  115792089210356248762697446949407573529996955224135760342422259061068512044369

/-- The NIST P-256 curve coefficient `b`. -/
def p256B : Nat :=
  41058363725152142129326129780047268409114441015993725554835256314039467401291

/-- The NIST P-256 generator x-coordinate. -/
def p256Gx : Nat :=
  48439561293906451759052585252797914202762949526041747995844080717082404635286

/-- The NIST P-256 generator y-coordinate. -/
def p256Gy : Nat :=
  36134250956749795798585127919587881956611106672985015071877198253568414405109

/-- The curve parameter `BitSize` stored for P-256. -/
def p256BitSize : Nat := 256

/-- Number of bytes of one coordinate, `Curve.coordLen` = `(BitSize + 7) / 8`. -/
def coordLen : Nat := (p256BitSize + 7) / 8

/-- Model of `CurvePoint.EmbedLen`: `(p.BitLen() - 8 - 8) / 8`. -/
def embedLen : Nat := (bitLen p256P - 8 - 8) / 8

/-- The optimized modular square root for the P-256 curve (`p256.sqrt`):
the fixed addition chain of `Exp`/`Mul` steps from the source, where the plain
`Mul` steps are not reduced (exactly as in the code). -/
def p256Sqrt (c : Nat) : Nat :=
  let m := p256P
  let t1 := c * c * c
  let t2 := powMod t1 4 m * t1
  let t3 := powMod t2 16 m * t2
  let t4 := powMod t3 256 m * t3
  let r1 := powMod t4 (2 ^ 16) m * t4
  let r2 := powMod r1 (2 ^ 32) m * c
  let r3 := powMod r2 (2 ^ 96) m * c
  powMod r3 (2 ^ 94) m

/-- The exponent `2^254 - 2^222 + 2^190 + 2^94` assembled by the chain. -/
def p256SqrtExp : Nat := 2 ^ 254 - 2 ^ 222 + 2 ^ 190 + 2 ^ 94

/-- The right-hand side `x³ − 3x + b (mod p)` of the curve equation, computed
over the integers and reduced with Euclidean `Mod` as `genPoint` does. -/
def y2Of (x : Nat) : Nat :=
  (((x : Int) * x * x - (2 * x + x) + p256B).emod p256P).toNat

/-- Byte drawn from the keystream at position `i` (`XORKeyStream` on one zero byte). -/
def byteAt (ks : Nat → Nat) (i : Nat) : Nat := ks i % 256

/-- Model of `CurvePoint.genPoint`: from a candidate x-coordinate, compute `y² = x³−3x+b`,
a square root `y`, draw one keystream byte whose high bit selects the sign of `y`,
then verify `y² ≡ y2 (mod p)`; on failure report `none`. The returned number is
the new keystream position. -/
def genPointS (x : Nat) (ks : Nat → Nat) (pos : Nat) : Option (Nat × Nat) × Nat :=
  let y2 := y2Of x
  let y0 := p256Sqrt y2
  let sb := byteAt ks pos
  let y := if sb.land 128 ≠ 0 then p256P - y0 else y0
  if y * y % p256P = y2 then (some (x, y), pos + 1) else (none, pos + 1)

/-- Modelled from the spec: `random.Bits(bitLen p, false, rand)` (package
`util/random`, not under `src/`) draws `bitLen(p) = 256` random bits, i.e. 32
bytes, from the keystream. -/
def randomBits256 (ks : Nat → Nat) (pos : Nat) : List Nat :=
  (List.range 32).map fun i => byteAt ks (pos + i)

/-- The candidate byte mutation of `Embed`: when data is non-nil, overwrite the
last byte with the data length `dl = min(EmbedLen, len(data))` and the `dl`
bytes before it with the data. -/
def embedBytes (data : Option (List Nat)) (bs : List Nat) : List Nat :=
  match data with
  | none => bs
  | some d =>
    let dl := min embedLen d.length
    bs.take (coordLen - dl - 1) ++ d.take dl ++ [dl]

/-- The rejection loop of `CurvePoint.Embed`, with explicit fuel: each iteration
draws a 32-byte candidate, embeds the data, and calls `genPoint`; on failure it
retries at the advanced keystream position. Returns the point (if any) and the
final keystream position. -/
def embedAux (ks : Nat → Nat) (data : Option (List Nat)) : Nat → Nat → Option (Nat × Nat) × Nat
  | 0, pos => (none, pos)
  | fuel + 1, pos =>
    let bs := embedBytes data (randomBits256 ks pos)
    match genPointS (beToNat bs) ks (pos + 32) with
    | (some pt, posn) => (some pt, posn)
    | (none, posn) => embedAux ks data fuel posn

/-- The leading-zero padding of `Data`: pad with zero bytes on the left when the
minimal encoding is shorter than `k`. -/
def leftPad (k : Nat) (b : List Nat) : List Nat :=
  if b.length < k then List.replicate (k - b.length) 0 ++ b else b

/-- Model of `CurvePoint.Data`: pad the x-coordinate bytes to `coordLen`, read the length
tag from the lowest byte, fail if it exceeds `EmbedLen`, else return the tagged
slice. -/
def dataOf (x : Nat) : Option (List Nat) :=
  let b := leftPad coordLen (natBytes x)
  let dl := b.getD (coordLen - 1) 0
  if embedLen < dl then none
  else some ((b.drop (coordLen - dl - 1)).take dl)

/-- Coordinates of `CurvePoint.Null`: the identity sentinel `(0,0)`. -/
def p256Null : Nat × Nat := (0, 0)

/-- Model of `CurvePoint.Equal` on coordinate values: both points' coordinates are
reduced modulo `p` (`big.Int.Mod` is Euclidean) and compared component-wise. -/
def equalP256 (a b : Int × Int) : Bool :=
  (a.1 % (p256P : Int) == b.1 % (p256P : Int)) && (a.2 % (p256P : Int) == b.2 % (p256P : Int))

/-- Model of `CurveParams.IsOnCurve` for P-256, parameterized form used below: here the
concrete predicate with the range check and the curve equation. -/
def isOnCurveP256 (x y : Nat) : Bool :=
  decide (x < p256P) && decide (y < p256P) && (y * y % p256P == y2Of x)

/-- Model of `CurvePoint.Valid` over an arbitrary on-curve predicate: the coordinates
satisfy the curve test or the point is the `(0,0)` identity. -/
def validGen (oc : Nat → Nat → Bool) (x y : Nat) : Bool :=
  oc x y || (decide (x = 0) && decide (y = 0))

/-- Model of `CurvePoint.Valid` for P-256. -/
def validP256 (x y : Nat) : Bool := validGen isOnCurveP256 x y

/-- Modelled from the spec: `elliptic.Unmarshal` of the external curve-arithmetic
provider (the Go standard library, an out-of-scope collaborator): it expects
`1 + 2*coordLen` bytes, marker byte 4, two big-endian coordinates, and yields
nothing unless the decoded point passes the curve test. -/
def ellipticUnmarshalGen (oc : Nat → Nat → Bool) (buf : List Nat) : Option (Nat × Nat) :=
  if buf.length = 1 + 2 * coordLen ∧ buf.getD 0 0 = 4 then
    let x := beToNat ((buf.drop 1).take coordLen)
    let y := beToNat (buf.drop (1 + coordLen))
    if oc x y then some (x, y) else none
  else none

/-- Whether some byte after the marker byte is nonzero (the accumulated `c |= b`
of `UnmarshalBinary` is nonzero). -/
def bodyNonzero (buf : List Nat) : Bool := (buf.drop 1).any fun b => b != 0

/-- Model of `CurvePoint.UnmarshalBinary` over an arbitrary on-curve predicate: the
receiver's coordinates (`*big.Int`, hence `Option Nat` to allow `nil`) before
the call are `st`; the result is the new coordinates and an error flag. -/
def unmarshalBinaryGen (oc : Nat → Nat → Bool) (buf : List Nat)
    (_st : Option Nat × Option Nat) : (Option Nat × Option Nat) × Bool :=
  if bodyNonzero buf then
    match ellipticUnmarshalGen oc buf with
    | none => ((none, none), true)
    | some (x, y) => ((some x, some y), !validGen oc x y)
  else ((some 0, some 0), false)

/-- Model of `CurvePoint.UnmarshalBinary` for P-256. -/
def unmarshalBinary (buf : List Nat) (st : Option Nat × Option Nat) :
    (Option Nat × Option Nat) × Bool :=
  unmarshalBinaryGen isOnCurveP256 buf st

/-- The coordinates `elliptic.Unmarshal` leaves in the receiver when the body is
nonzero: the decoded pair, or `nil` pointers when decoding fails. -/
def unmarshalResultCoords (buf : List Nat) : Option Nat × Option Nat :=
  match ellipticUnmarshalGen isOnCurveP256 buf with
  | none => (none, none)
  | some (x, y) => (some x, some y)

/-- Fixed-width big-endian encoding used to build test buffers: the minimal
encoding zero-padded on the left to `k` bytes. -/
def fixedBE (k x : Nat) : List Nat :=
  List.replicate (k - (natBytes x).length) 0 ++ natBytes x

/-! Heap model for `Clone`, `Set` and the in-place reduction of `Equal`

A Go `*big.Int` is a pointer to a mutable cell.  The store is a list of cell
values and a point holds two cell indices.  `Clone` copies the two pointers
(`&CurvePoint{x: P.x, y: P.y, C: P.C}`), not the cells. -/

/-- A `CurvePoint` as held in the heap model: indices of its two coordinate cells. -/
structure PtRefs where
  x : Nat
  y : Nat
deriving DecidableEq

/-- Model of `CurvePoint.Clone`: a new point holding the same two `*big.Int` pointers. -/
def cloneRefs (P : PtRefs) : PtRefs := ⟨P.x, P.y⟩

/-- Model of `CurvePoint.Set`: the receiver takes the argument's two `*big.Int` pointers. -/
def setRefs (_P A : PtRefs) : PtRefs := ⟨A.x, A.y⟩

/-- Model of `CurvePoint.Equal` in the heap model: normalize all four coordinate cells in
place (`P.x.Mod(P.x, M)` mutates the cell) and compare; returns the updated
store and the comparison result. -/
def equalStore (st : List Nat) (P Q : PtRefs) : List Nat × Bool :=
  let st1 := st.set P.x (st.getD P.x 0 % p256P)
  let st2 := st1.set P.y (st1.getD P.y 0 % p256P)
  let st3 := st2.set Q.x (st2.getD Q.x 0 % p256P)
  let st4 := st3.set Q.y (st3.getD Q.y 0 % p256P)
  (st4, (st4.getD P.x 0 == st4.getD Q.x 0) && (st4.getD P.y 0 == st4.getD Q.y 0))

/-- Observable coordinate values of a point in the heap model (what `String`,
`Data` or `MarshalBinary` would read). -/
def observeRefs (st : List Nat) (P : PtRefs) : Nat × Nat :=
  (st.getD P.x 0, st.getD P.y 0)

/-- The store for the C5 failing input: the original point holds an unreduced
x-coordinate `Gx + p` (cells 0,1); a second point holds the reduced generator
(cells 2,3). -/
def c5Store : List Nat := [p256Gx + p256P, p256Gy, p256Gx, p256Gy]

/-! The external curve-arithmetic provider and the operations built on it

The spec treats the curve-arithmetic primitive (`elliptic.Curve`) as an external
collaborator with standard short-Weierstrass semantics; points at infinity are
encoded as `(0,0)`. -/

/-- The capability surface of the external curve-arithmetic provider, as listed
in the spec: parameters plus `Add`, `ScalarMult`, `ScalarBaseMult`, `IsOnCurve`.
Scalars reach `ScalarMult` as their integer value (`cs.V.Bytes()`). -/
structure CurveOps where
  p : Nat
  n : Nat
  b : Nat
  gx : Nat
  gy : Nat
  add : Nat × Nat → Nat × Nat → Nat × Nat
  scalarMult : Nat × Nat → Nat → Nat × Nat
  scalarBaseMult : Nat → Nat × Nat
  isOnCurve : Nat × Nat → Bool

/-- Iterated provider addition: `k` copies of `P` accumulated from the `(0,0)`
identity encoding. -/
def smulAdd (add : Nat × Nat → Nat × Nat → Nat × Nat) : Nat → Nat × Nat → Nat × Nat
  | 0, _ => (0, 0)
  | k + 1, P => add P (smulAdd add k P)

/-- Model of `CurvePoint.Valid` over a provider. -/
def validPt (C : CurveOps) (P : Nat × Nat) : Bool :=
  C.isOnCurve P || decide (P = (0, 0))

/-- Model of `CurvePoint.Add` over a provider. -/
def addPt (C : CurveOps) (A B : Nat × Nat) : Nat × Nat := C.add A B

/-- Modelled from the spec: a `mod.Int` scalar (package `group/mod` is not under
`src/`) is an integer value held modulo its own modulus `M`; every operation
reduces the stored value into `[0, M)`. -/
structure ModInt where
  V : Nat
  M : Nat
deriving DecidableEq

/-- Modelled from the spec: `mod.Int.Init64(v, m)` stores modulus `m` and the
value `v` reduced mod `m`. -/
def modIntInit64 (v m : Nat) : ModInt := ⟨v % m, m⟩

/-- Modelled from the spec: `Scalar().One()` for a curve with order `n`. -/
def modIntOne (n : Nat) : ModInt := ⟨1 % n, n⟩

/-- Modelled from the spec: `mod.Int.Neg`, the additive inverse modulo `M`. -/
def modIntNeg (s : ModInt) : ModInt := ⟨(s.M - s.V) % s.M, s.M⟩

/-- Modelled from the spec: `mod.Int.SetBytes` interprets the buffer as a
big-endian integer and reduces it modulo the scalar's modulus. -/
def modIntSetBytes (s : ModInt) (buf : List Nat) : ModInt := ⟨beToNat buf % s.M, s.M⟩

/-- Model of `CurvePoint.Neg`: scalar multiplication of the argument by `Neg(One())`,
whose integer value reaches the provider through `cs.V.Bytes()`. -/
def negPt (C : CurveOps) (A : Nat × Nat) : Nat × Nat :=
  C.scalarMult A (modIntNeg (modIntOne C.n)).V

/-- The comparison `CurvePoint.Equal` performs over a provider: component-wise
equality after reduction modulo the curve's prime. -/
def equalPt (C : CurveOps) (A B : Nat × Nat) : Bool :=
  (A.1 % C.p == B.1 % C.p) && (A.2 % C.p == B.2 % C.p)

/-! A concrete toy provider: the curve `y² = x³ − 3x + 3` over `F₇`

Its group has order 6; it instantiates the provider axioms with everything
decidable, serving as the witness instance for the provider-parametric claims. -/

/-- Inverse in `F₇` by Fermat. -/
def toyInv (a : Nat) : Nat := a ^ 5 % 7

/-- The affine chord-tangent addition law on the toy curve, with `(0,0)` as the
encoding of the point at infinity (the same convention the Go library uses). -/
def toyAdd (P Q : Nat × Nat) : Nat × Nat :=
  if P = (0, 0) then Q
  else if Q = (0, 0) then P
  else
    let x1 := P.1 % 7
    let y1 := P.2 % 7
    let x2 := Q.1 % 7
    let y2 := Q.2 % 7
    if x1 = x2 ∧ (y1 + y2) % 7 = 0 then (0, 0)
    else
      let lam :=
        if x1 = x2 then (3 * x1 * x1 + 4) * toyInv (2 * y1 % 7) % 7
        else (y2 + 7 - y1) * toyInv ((x2 + 7 - x1) % 7) % 7
      let x3 := (lam * lam + 14 - x1 - x2) % 7
      (x3, (lam * ((x1 + 14 - x3) % 7) + 7 - y1) % 7)

/-- The on-curve test of the toy provider (with the range check the Go
`IsOnCurve` performs). -/
def toyIsOnCurve (P : Nat × Nat) : Bool :=
  decide (P.1 < 7) && decide (P.2 < 7) &&
    (P.2 * P.2 % 7 == (P.1 * P.1 * P.1 + 4 * P.1 + 3) % 7)

/-- The toy provider: prime 7, group order 6, generator `(1,1)`, scalar
multiplication by iterated addition. -/
def toyOps : CurveOps where
  p := 7
  n := 6
  b := 3
  gx := 1
  gy := 1
  add := toyAdd
  scalarMult := fun P k => smulAdd toyAdd k P
  scalarBaseMult := fun k => smulAdd toyAdd k (1, 1)
  isOnCurve := toyIsOnCurve

/-! The vector-commitment consumer (`util/vc`) -/

/-- Model of `vc.Commitment.Add` (`part_001`): check the 32-byte length (`none` models the
panic), build the scalar — a `mod.Int` initialized by `Init64(1, big.NewInt(1))`,
hence with modulus 1, then `SetBytes(x)` — multiply generator `i` by its value,
and add the result onto the commitment point. -/
def vcAdd (C : CurveOps) (gens : List (Nat × Nat)) (cpt : Nat × Nat) (i : Nat)
    (x : List Nat) : Option (Nat × Nat) :=
  if x.length = 32 then
    let scalar := modIntSetBytes (modIntInit64 1 1) x
    some (C.add (C.scalarMult (gens.getD i (0, 0)) scalar.V) cpt)
  else none

/-- The `for` loop of `vc.Commit`: `c.Add(i, xs[i])` for each index in order. -/
def vcCommitLoop (C : CurveOps) (gens : List (Nat × Nat)) :
    Nat → List (List Nat) → Nat × Nat → Option (Nat × Nat)
  | _, [], acc => some acc
  | i, x :: rest, acc =>
    match vcAdd C gens acc i x with
    | some acc2 => vcCommitLoop C gens (i + 1) rest acc2
    | none => none

/-- Model of `vc.Commit`: reject any input that is not 32 bytes (the panic), then
accumulate all contributions starting from the identity. -/
def vcCommit (C : CurveOps) (gens : List (Nat × Nat)) (xs : List (List Nat)) :
    Option (Nat × Nat) :=
  if xs.all fun x => x.length = 32 then vcCommitLoop C gens 0 xs (0, 0) else none

/-- The sum the spec's consumer contract describes: `Σ scalar(x_i)·G_i`
accumulated from the identity, scalars being the 32-byte values reduced modulo
the group order. -/
def specVCSum (C : CurveOps) (gens : List (Nat × Nat)) (xs : List (List Nat)) : Nat × Nat :=
  (xs.zip (List.range xs.length)).foldl
    (fun acc ix => C.add (C.scalarMult (gens.getD ix.2 (0, 0)) (beToNat ix.1 % C.n)) acc)
    (0, 0)

/-- A 65-byte buffer whose marker byte is 5 (not 4) but whose coordinate body is
the generator: used for the decoding claims. -/
def c3c10Buf : List Nat := 5 :: (fixedBE 32 p256Gx ++ fixedBE 32 p256Gy)

/-! ## Helper lemmas -/

theorem powModAux_correct : ∀ (fuel b e m : Nat), e ≤ fuel → 0 < m →
    powModAux fuel b e m = b ^ e % m
  | 0, b, 0, m, _, _ => by simp [powModAux]
  | 0, _, e + 1, _, h, _ => absurd h (by omega)
  | fuel + 1, b, e, m, h, hm => by
    show (if e = 0 then 1 % m
      else
        let r := powModAux fuel ((b * b) % m) (e / 2) m
        if e % 2 = 1 then (r * b) % m else r) = b ^ e % m
    by_cases he : e = 0
    · simp [he]
    · simp only [he, if_false]
      have hrec : powModAux fuel ((b * b) % m) (e / 2) m = (b * b) ^ (e / 2) % m := by
        rw [powModAux_correct fuel ((b * b) % m) (e / 2) m (by omega) hm]
        rw [← Nat.pow_mod]
      have hbb : (b * b) ^ (e / 2) = b ^ (2 * (e / 2)) := by
        rw [← pow_two, ← pow_mul]
      by_cases ho : e % 2 = 1
      · have hee : e = 2 * (e / 2) + 1 := by omega
        simp only [ho, if_true, hrec, hbb]
        conv_rhs => rw [hee]
        rw [pow_succ, Nat.mul_mod, Nat.mod_mod_of_dvd _ (dvd_refl m), ← Nat.mul_mod]
      · have hee : e = 2 * (e / 2) := by omega
        simp only [ho, if_false, hrec, hbb]
        rw [← hee]

theorem powMod_correct (b e m : Nat) (hm : 0 < m) : powMod b e m = b ^ e % m :=
  powModAux_correct e b e m le_rfl hm

theorem stagePow {p a c : Nat} (k s : Nat) (h : a ≡ c ^ k [MOD p]) :
    a ^ s % p ≡ c ^ (k * s) [MOD p] := by
  calc a ^ s % p ≡ a ^ s [MOD p] := Nat.mod_modEq _ _
    _ ≡ (c ^ k) ^ s [MOD p] := h.pow s
    _ = c ^ (k * s) := by rw [← pow_mul]

theorem stageCongr {p a c d : Nat} (k s j : Nat) (h : a ≡ c ^ k [MOD p])
    (hd : d ≡ c ^ j [MOD p]) : a ^ s % p * d ≡ c ^ (k * s + j) [MOD p] := by
  calc a ^ s % p * d ≡ c ^ (k * s) * c ^ j [MOD p] := (stagePow k s h).mul hd
    _ = c ^ (k * s + j) := by rw [← pow_add]

theorem p256Sqrt_eq_pow (c : Nat) : p256Sqrt c = c ^ p256SqrtExp % p256P := by
  have hp : 0 < p256P := by decide
  have pc : ∀ b e, powMod b e p256P = b ^ e % p256P := fun b e => powMod_correct b e _ hp
  have hc3 : c * c * c ≡ c ^ 3 [MOD p256P] := by
    have h : c * c * c = c ^ 3 := by ring
    rw [h]
  have hc1 : c ≡ c ^ 1 [MOD p256P] := by rw [pow_one]
  have h2 := stageCongr 3 4 3 hc3 hc3
  have h3 := stageCongr _ 16 _ h2 h2
  have h4 := stageCongr _ 256 _ h3 h3
  have h5 := stageCongr _ (2 ^ 16) _ h4 h4
  have h6 := stageCongr _ (2 ^ 32) 1 h5 hc1
  have h7 := stageCongr _ (2 ^ 96) 1 h6 hc1
  have h8 := stagePow _ (2 ^ 94) h7
  unfold p256Sqrt
  simp only [pc]
  have hfin := (Nat.mod_mod_of_dvd _ (dvd_refl p256P)).symm.trans h8
  rw [hfin]
  norm_num [p256SqrtExp]

theorem lucasHelper (p a : Nat) (qs : List Nat) (hp : 1 < p)
    (hfac : ∀ q, Nat.Prime q → q ∣ (p - 1) → q ∈ qs)
    (ha : powMod a (p - 1) p = 1)
    (hqs : ∀ q ∈ qs, powMod a ((p - 1) / q) p ≠ 1) : Nat.Prime p := by
  have hp0 : 0 < p := by omega
  rw [powMod_correct a (p - 1) p hp0] at ha
  apply lucas_primality p ((a : Nat) : ZMod p)
  · have h : ((a ^ (p - 1) : Nat) : ZMod p) = ((1 : Nat) : ZMod p) := by
      rw [ZMod.natCast_eq_natCast_iff', ha, Nat.mod_eq_of_lt hp]
    simpa using h
  · intro q hq hdvd hcontra
    apply hqs q (hfac q hq hdvd)
    have h : ((a ^ ((p - 1) / q) : Nat) : ZMod p) = ((1 : Nat) : ZMod p) := by
      push_cast
      simpa using hcontra
    rw [ZMod.natCast_eq_natCast_iff', Nat.mod_eq_of_lt hp] at h
    rw [powMod_correct a ((p - 1) / q) p hp0]
    exact h

/-- Lucas certificate for the prime 65537. -/
theorem prime65537x : Nat.Prime 65537 := by
  apply lucasHelper 65537 3 [2] (by norm_num)
  · intro q hq hdvd
    have hN : (65537 : Nat) - 1 = 2 * 2 * 2 * 2 * 2 * 2 * 2 * 2 * 2 * 2 * 2 * 2 * 2 * 2 * 2 * 2 := by norm_num
    rw [hN] at hdvd
    rcases (Nat.Prime.dvd_mul hq).mp hdvd with hdvd | h
    case inr =>
      rw [(Nat.prime_dvd_prime_iff_eq hq (by norm_num)).mp h]
      decide
    rcases (Nat.Prime.dvd_mul hq).mp hdvd with hdvd | h
    case inr =>
      rw [(Nat.prime_dvd_prime_iff_eq hq (by norm_num)).mp h]
      decide
    rcases (Nat.Prime.dvd_mul hq).mp hdvd with hdvd | h
    case inr =>
      rw [(Nat.prime_dvd_prime_iff_eq hq (by norm_num)).mp h]
      decide
    rcases (Nat.Prime.dvd_mul hq).mp hdvd with hdvd | h
    case inr =>
      rw [(Nat.prime_dvd_prime_iff_eq hq (by norm_num)).mp h]
      decide
    rcases (Nat.Prime.dvd_mul hq).mp hdvd with hdvd | h
    case inr =>
      rw [(Nat.prime_dvd_prime_iff_eq hq (by norm_num)).mp h]
      decide
    rcases (Nat.Prime.dvd_mul hq).mp hdvd with hdvd | h
    case inr =>
      rw [(Nat.prime_dvd_prime_iff_eq hq (by norm_num)).mp h]
      decide
    rcases (Nat.Prime.dvd_mul hq).mp hdvd with hdvd | h
    case inr =>
      rw [(Nat.prime_dvd_prime_iff_eq hq (by norm_num)).mp h]
      decide
    rcases (Nat.Prime.dvd_mul hq).mp hdvd with hdvd | h
    case inr =>
      rw [(Nat.prime_dvd_prime_iff_eq hq (by norm_num)).mp h]
      decide
    rcases (Nat.Prime.dvd_mul hq).mp hdvd with hdvd | h
    case inr =>
      rw [(Nat.prime_dvd_prime_iff_eq hq (by norm_num)).mp h]
      decide
    rcases (Nat.Prime.dvd_mul hq).mp hdvd with hdvd | h
    case inr =>
      rw [(Nat.prime_dvd_prime_iff_eq hq (by norm_num)).mp h]
      decide
    rcases (Nat.Prime.dvd_mul hq).mp hdvd with hdvd | h
    case inr =>
      rw [(Nat.prime_dvd_prime_iff_eq hq (by norm_num)).mp h]
      decide
    rcases (Nat.Prime.dvd_mul hq).mp hdvd with hdvd | h
    case inr =>
      rw [(Nat.prime_dvd_prime_iff_eq hq (by norm_num)).mp h]
      decide
    rcases (Nat.Prime.dvd_mul hq).mp hdvd with hdvd | h
    case inr =>
      rw [(Nat.prime_dvd_prime_iff_eq hq (by norm_num)).mp h]
      decide
    rcases (Nat.Prime.dvd_mul hq).mp hdvd with hdvd | h
    case inr =>
      rw [(Nat.prime_dvd_prime_iff_eq hq (by norm_num)).mp h]
      decide
    rcases (Nat.Prime.dvd_mul hq).mp hdvd with hdvd | h
    case inr =>
      rw [(Nat.prime_dvd_prime_iff_eq hq (by norm_num)).mp h]
      decide
    rw [(Nat.prime_dvd_prime_iff_eq hq (by norm_num)).mp hdvd]
    decide
  · decide
  · decide

/-- Lucas certificate for the prime 78283. -/
theorem prime78283x : Nat.Prime 78283 := by
  apply lucasHelper 78283 3 [2, 3, 4349] (by norm_num)
  · intro q hq hdvd
    have hN : (78283 : Nat) - 1 = 2 * 3 * 3 * 4349 := by norm_num
    rw [hN] at hdvd
    rcases (Nat.Prime.dvd_mul hq).mp hdvd with hdvd | h
    case inr =>
      rw [(Nat.prime_dvd_prime_iff_eq hq (by norm_num)).mp h]
      decide
    rcases (Nat.Prime.dvd_mul hq).mp hdvd with hdvd | h
    case inr =>
      rw [(Nat.prime_dvd_prime_iff_eq hq (by norm_num)).mp h]
      decide
    rcases (Nat.Prime.dvd_mul hq).mp hdvd with hdvd | h
    case inr =>
      rw [(Nat.prime_dvd_prime_iff_eq hq (by norm_num)).mp h]
      decide
    rw [(Nat.prime_dvd_prime_iff_eq hq (by norm_num)).mp hdvd]
    decide
  · decide
  · decide

/-- Lucas certificate for the prime 490463. -/
theorem prime490463x : Nat.Prime 490463 := by
  apply lucasHelper 490463 14 [2, 7, 53, 661] (by norm_num)
  · intro q hq hdvd
    have hN : (490463 : Nat) - 1 = 2 * 7 * 53 * 661 := by norm_num
    rw [hN] at hdvd
    rcases (Nat.Prime.dvd_mul hq).mp hdvd with hdvd | h
    case inr =>
      rw [(Nat.prime_dvd_prime_iff_eq hq (by norm_num)).mp h]
      decide
    rcases (Nat.Prime.dvd_mul hq).mp hdvd with hdvd | h
    case inr =>
      rw [(Nat.prime_dvd_prime_iff_eq hq (by norm_num)).mp h]
      decide
    rcases (Nat.Prime.dvd_mul hq).mp hdvd with hdvd | h
    case inr =>
      rw [(Nat.prime_dvd_prime_iff_eq hq (by norm_num)).mp h]
      decide
    rw [(Nat.prime_dvd_prime_iff_eq hq (by norm_num)).mp hdvd]
    decide
  · decide
  · decide

/-- Lucas certificate for the prime 704251. -/
theorem prime704251x : Nat.Prime 704251 := by
  apply lucasHelper 704251 2 [2, 3, 5, 313] (by norm_num)
  · intro q hq hdvd
    have hN : (704251 : Nat) - 1 = 2 * 3 * 3 * 5 * 5 * 5 * 313 := by norm_num
    rw [hN] at hdvd
    rcases (Nat.Prime.dvd_mul hq).mp hdvd with hdvd | h
    case inr =>
      rw [(Nat.prime_dvd_prime_iff_eq hq (by norm_num)).mp h]
      decide
    rcases (Nat.Prime.dvd_mul hq).mp hdvd with hdvd | h
    case inr =>
      rw [(Nat.prime_dvd_prime_iff_eq hq (by norm_num)).mp h]
      decide
    rcases (Nat.Prime.dvd_mul hq).mp hdvd with hdvd | h
    case inr =>
      rw [(Nat.prime_dvd_prime_iff_eq hq (by norm_num)).mp h]
      decide
    rcases (Nat.Prime.dvd_mul hq).mp hdvd with hdvd | h
    case inr =>
      rw [(Nat.prime_dvd_prime_iff_eq hq (by norm_num)).mp h]
      decide
    rcases (Nat.Prime.dvd_mul hq).mp hdvd with hdvd | h
    case inr =>
      rw [(Nat.prime_dvd_prime_iff_eq hq (by norm_num)).mp h]
      decide
    rcases (Nat.Prime.dvd_mul hq).mp hdvd with hdvd | h
    case inr =>
      rw [(Nat.prime_dvd_prime_iff_eq hq (by norm_num)).mp h]
      decide
    rw [(Nat.prime_dvd_prime_iff_eq hq (by norm_num)).mp hdvd]
    decide
  · decide
  · decide

/-- Lucas certificate for the prime 6700417. -/
theorem prime6700417x : Nat.Prime 6700417 := by
  apply lucasHelper 6700417 5 [2, 3, 17449] (by norm_num)
  · intro q hq hdvd
    have hN : (6700417 : Nat) - 1 = 2 * 2 * 2 * 2 * 2 * 2 * 2 * 3 * 17449 := by norm_num
    rw [hN] at hdvd
    rcases (Nat.Prime.dvd_mul hq).mp hdvd with hdvd | h
    case inr =>
      rw [(Nat.prime_dvd_prime_iff_eq hq (by norm_num)).mp h]
      decide
    rcases (Nat.Prime.dvd_mul hq).mp hdvd with hdvd | h
    case inr =>
      rw [(Nat.prime_dvd_prime_iff_eq hq (by norm_num)).mp h]
      decide
    rcases (Nat.Prime.dvd_mul hq).mp hdvd with hdvd | h
    case inr =>
      rw [(Nat.prime_dvd_prime_iff_eq hq (by norm_num)).mp h]
      decide
    rcases (Nat.Prime.dvd_mul hq).mp hdvd with hdvd | h
    case inr =>
      rw [(Nat.prime_dvd_prime_iff_eq hq (by norm_num)).mp h]
      decide
    rcases (Nat.Prime.dvd_mul hq).mp hdvd with hdvd | h
    case inr =>
      rw [(Nat.prime_dvd_prime_iff_eq hq (by norm_num)).mp h]
      decide
    rcases (Nat.Prime.dvd_mul hq).mp hdvd with hdvd | h
    case inr =>
      rw [(Nat.prime_dvd_prime_iff_eq hq (by norm_num)).mp h]
      decide
    rcases (Nat.Prime.dvd_mul hq).mp hdvd with hdvd | h
    case inr =>
      rw [(Nat.prime_dvd_prime_iff_eq hq (by norm_num)).mp h]
      decide
    rcases (Nat.Prime.dvd_mul hq).mp hdvd with hdvd | h
    case inr =>
      rw [(Nat.prime_dvd_prime_iff_eq hq (by norm_num)).mp h]
      decide
    rw [(Nat.prime_dvd_prime_iff_eq hq (by norm_num)).mp hdvd]
    decide
  · decide
  · decide

/-- Lucas certificate for the prime 204061199. -/
theorem prime4061199x : Nat.Prime 204061199 := by
  apply lucasHelper 204061199 11 [2, 11, 23, 107, 3769] (by norm_num)
  · intro q hq hdvd
    have hN : (204061199 : Nat) - 1 = 2 * 11 * 23 * 107 * 3769 := by norm_num
    rw [hN] at hdvd
    rcases (Nat.Prime.dvd_mul hq).mp hdvd with hdvd | h
    case inr =>
      rw [(Nat.prime_dvd_prime_iff_eq hq (by norm_num)).mp h]
      decide
    rcases (Nat.Prime.dvd_mul hq).mp hdvd with hdvd | h
    case inr =>
      rw [(Nat.prime_dvd_prime_iff_eq hq (by norm_num)).mp h]
      decide
    rcases (Nat.Prime.dvd_mul hq).mp hdvd with hdvd | h
    case inr =>
      rw [(Nat.prime_dvd_prime_iff_eq hq (by norm_num)).mp h]
      decide
    rcases (Nat.Prime.dvd_mul hq).mp hdvd with hdvd | h
    case inr =>
      rw [(Nat.prime_dvd_prime_iff_eq hq (by norm_num)).mp h]
      decide
    rw [(Nat.prime_dvd_prime_iff_eq hq (by norm_num)).mp hdvd]
    decide
  · decide
  · decide

/-- Lucas certificate for the prime 34282281433. -/
theorem prime82281433x : Nat.Prime 34282281433 := by
  apply lucasHelper 34282281433 17 [2, 3, 7, 204061199] (by norm_num)
  · intro q hq hdvd
    have hN : (34282281433 : Nat) - 1 = 2 * 2 * 2 * 3 * 7 * 204061199 := by norm_num
    rw [hN] at hdvd
    rcases (Nat.Prime.dvd_mul hq).mp hdvd with hdvd | h
    case inr =>
      rw [(Nat.prime_dvd_prime_iff_eq hq prime4061199x).mp h]
      decide
    rcases (Nat.Prime.dvd_mul hq).mp hdvd with hdvd | h
    case inr =>
      rw [(Nat.prime_dvd_prime_iff_eq hq (by norm_num)).mp h]
      decide
    rcases (Nat.Prime.dvd_mul hq).mp hdvd with hdvd | h
    case inr =>
      rw [(Nat.prime_dvd_prime_iff_eq hq (by norm_num)).mp h]
      decide
    rcases (Nat.Prime.dvd_mul hq).mp hdvd with hdvd | h
    case inr =>
      rw [(Nat.prime_dvd_prime_iff_eq hq (by norm_num)).mp h]
      decide
    rcases (Nat.Prime.dvd_mul hq).mp hdvd with hdvd | h
    case inr =>
      rw [(Nat.prime_dvd_prime_iff_eq hq (by norm_num)).mp h]
      decide
    rw [(Nat.prime_dvd_prime_iff_eq hq (by norm_num)).mp hdvd]
    decide
  · decide
  · decide

/-- Lucas certificate for the prime 66417393611. -/
theorem prime17393611x : Nat.Prime 66417393611 := by
  apply lucasHelper 66417393611 6 [2, 5, 53, 173, 197, 3677] (by norm_num)
  · intro q hq hdvd
    have hN : (66417393611 : Nat) - 1 = 2 * 5 * 53 * 173 * 197 * 3677 := by norm_num
    rw [hN] at hdvd
    rcases (Nat.Prime.dvd_mul hq).mp hdvd with hdvd | h
    case inr =>
      rw [(Nat.prime_dvd_prime_iff_eq hq (by norm_num)).mp h]
      decide
    rcases (Nat.Prime.dvd_mul hq).mp hdvd with hdvd | h
    case inr =>
      rw [(Nat.prime_dvd_prime_iff_eq hq (by norm_num)).mp h]
      decide
    rcases (Nat.Prime.dvd_mul hq).mp hdvd with hdvd | h
    case inr =>
      rw [(Nat.prime_dvd_prime_iff_eq hq (by norm_num)).mp h]
      decide
    rcases (Nat.Prime.dvd_mul hq).mp hdvd with hdvd | h
    case inr =>
      rw [(Nat.prime_dvd_prime_iff_eq hq (by norm_num)).mp h]
      decide
    rcases (Nat.Prime.dvd_mul hq).mp hdvd with hdvd | h
    case inr =>
      rw [(Nat.prime_dvd_prime_iff_eq hq (by norm_num)).mp h]
      decide
    rw [(Nat.prime_dvd_prime_iff_eq hq (by norm_num)).mp hdvd]
    decide
  · decide
  · decide

/-- Lucas certificate for the prime 11290956913871. -/
theorem prime56913871x : Nat.Prime 11290956913871 := by
  apply lucasHelper 11290956913871 13 [2, 5, 17, 66417393611] (by norm_num)
  · intro q hq hdvd
    have hN : (11290956913871 : Nat) - 1 = 2 * 5 * 17 * 66417393611 := by norm_num
    rw [hN] at hdvd
    rcases (Nat.Prime.dvd_mul hq).mp hdvd with hdvd | h
    case inr =>
      rw [(Nat.prime_dvd_prime_iff_eq hq prime17393611x).mp h]
      decide
    rcases (Nat.Prime.dvd_mul hq).mp hdvd with hdvd | h
    case inr =>
      rw [(Nat.prime_dvd_prime_iff_eq hq (by norm_num)).mp h]
      decide
    rcases (Nat.Prime.dvd_mul hq).mp hdvd with hdvd | h
    case inr =>
      rw [(Nat.prime_dvd_prime_iff_eq hq (by norm_num)).mp h]
      decide
    rw [(Nat.prime_dvd_prime_iff_eq hq (by norm_num)).mp hdvd]
    decide
  · decide
  · decide

/-- Lucas certificate for the prime 46076956964474543. -/
theorem prime64474543x : Nat.Prime 46076956964474543 := by
  apply lucasHelper 46076956964474543 5 [2, 23, 18169, 78283, 704251] (by norm_num)
  · intro q hq hdvd
    have hN : (46076956964474543 : Nat) - 1 = 2 * 23 * 18169 * 78283 * 704251 := by norm_num
    rw [hN] at hdvd
    rcases (Nat.Prime.dvd_mul hq).mp hdvd with hdvd | h
    case inr =>
      rw [(Nat.prime_dvd_prime_iff_eq hq prime704251x).mp h]
      decide
    rcases (Nat.Prime.dvd_mul hq).mp hdvd with hdvd | h
    case inr =>
      rw [(Nat.prime_dvd_prime_iff_eq hq prime78283x).mp h]
      decide
    rcases (Nat.Prime.dvd_mul hq).mp hdvd with hdvd | h
    case inr =>
      rw [(Nat.prime_dvd_prime_iff_eq hq (by norm_num)).mp h]
      decide
    rcases (Nat.Prime.dvd_mul hq).mp hdvd with hdvd | h
    case inr =>
      rw [(Nat.prime_dvd_prime_iff_eq hq (by norm_num)).mp h]
      decide
    rw [(Nat.prime_dvd_prime_iff_eq hq (by norm_num)).mp hdvd]
    decide
  · decide
  · decide

/-- Lucas certificate for the prime 774023187263532362759620327192479577272145303. -/
theorem prime72145303x : Nat.Prime 774023187263532362759620327192479577272145303 := by
  apply lucasHelper 774023187263532362759620327192479577272145303 3 [2, 3, 2411, 34282281433, 11290956913871, 46076956964474543] (by norm_num)
  · intro q hq hdvd
    have hN : (774023187263532362759620327192479577272145303 : Nat) - 1 = 2 * 3 * 3 * 2411 * 34282281433 * 11290956913871 * 46076956964474543 := by norm_num
    rw [hN] at hdvd
    rcases (Nat.Prime.dvd_mul hq).mp hdvd with hdvd | h
    case inr =>
      rw [(Nat.prime_dvd_prime_iff_eq hq prime64474543x).mp h]
      decide
    rcases (Nat.Prime.dvd_mul hq).mp hdvd with hdvd | h
    case inr =>
      rw [(Nat.prime_dvd_prime_iff_eq hq prime56913871x).mp h]
      decide
    rcases (Nat.Prime.dvd_mul hq).mp hdvd with hdvd | h
    case inr =>
      rw [(Nat.prime_dvd_prime_iff_eq hq prime82281433x).mp h]
      decide
    rcases (Nat.Prime.dvd_mul hq).mp hdvd with hdvd | h
    case inr =>
      rw [(Nat.prime_dvd_prime_iff_eq hq (by norm_num)).mp h]
      decide
    rcases (Nat.Prime.dvd_mul hq).mp hdvd with hdvd | h
    case inr =>
      rw [(Nat.prime_dvd_prime_iff_eq hq (by norm_num)).mp h]
      decide
    rcases (Nat.Prime.dvd_mul hq).mp hdvd with hdvd | h
    case inr =>
      rw [(Nat.prime_dvd_prime_iff_eq hq (by norm_num)).mp h]
      decide
    rw [(Nat.prime_dvd_prime_iff_eq hq (by norm_num)).mp hdvd]
    decide
  · decide
  · decide

/-- Lucas certificate for the prime 835945042244614951780389953367877943453916927241. -/
theorem prime16927241x : Nat.Prime 835945042244614951780389953367877943453916927241 := by
  apply lucasHelper 835945042244614951780389953367877943453916927241 11 [2, 3, 5, 774023187263532362759620327192479577272145303] (by norm_num)
  · intro q hq hdvd
    have hN : (835945042244614951780389953367877943453916927241 : Nat) - 1 = 2 * 2 * 2 * 3 * 3 * 3 * 5 * 774023187263532362759620327192479577272145303 := by norm_num
    rw [hN] at hdvd
    rcases (Nat.Prime.dvd_mul hq).mp hdvd with hdvd | h
    case inr =>
      rw [(Nat.prime_dvd_prime_iff_eq hq prime72145303x).mp h]
      decide
    rcases (Nat.Prime.dvd_mul hq).mp hdvd with hdvd | h
    case inr =>
      rw [(Nat.prime_dvd_prime_iff_eq hq (by norm_num)).mp h]
      decide
    rcases (Nat.Prime.dvd_mul hq).mp hdvd with hdvd | h
    case inr =>
      rw [(Nat.prime_dvd_prime_iff_eq hq (by norm_num)).mp h]
      decide
    rcases (Nat.Prime.dvd_mul hq).mp hdvd with hdvd | h
    case inr =>
      rw [(Nat.prime_dvd_prime_iff_eq hq (by norm_num)).mp h]
      decide
    rcases (Nat.Prime.dvd_mul hq).mp hdvd with hdvd | h
    case inr =>
      rw [(Nat.prime_dvd_prime_iff_eq hq (by norm_num)).mp h]
      decide
    rcases (Nat.Prime.dvd_mul hq).mp hdvd with hdvd | h
    case inr =>
      rw [(Nat.prime_dvd_prime_iff_eq hq (by norm_num)).mp h]
      decide
    rcases (Nat.Prime.dvd_mul hq).mp hdvd with hdvd | h
    case inr =>
      rw [(Nat.prime_dvd_prime_iff_eq hq (by norm_num)).mp h]
      decide
    rw [(Nat.prime_dvd_prime_iff_eq hq (by norm_num)).mp hdvd]
    decide
  · decide
  · decide

/-- Lucas certificate for the prime 115792089210356248762697446949407573530086143415290314195533631308867097853951. -/
theorem prime97853951x : Nat.Prime 115792089210356248762697446949407573530086143415290314195533631308867097853951 := by
  apply lucasHelper 115792089210356248762697446949407573530086143415290314195533631308867097853951 6 [2, 3, 5, 17, 257, 641, 1531, 65537, 490463, 6700417, 835945042244614951780389953367877943453916927241] (by norm_num)
  · intro q hq hdvd
    have hN : (115792089210356248762697446949407573530086143415290314195533631308867097853951 : Nat) - 1 = 2 * 3 * 5 * 5 * 17 * 257 * 641 * 1531 * 65537 * 490463 * 6700417 * 835945042244614951780389953367877943453916927241 := by norm_num
    rw [hN] at hdvd
    rcases (Nat.Prime.dvd_mul hq).mp hdvd with hdvd | h
    case inr =>
      rw [(Nat.prime_dvd_prime_iff_eq hq prime16927241x).mp h]
      decide
    rcases (Nat.Prime.dvd_mul hq).mp hdvd with hdvd | h
    case inr =>
      rw [(Nat.prime_dvd_prime_iff_eq hq prime6700417x).mp h]
      decide
    rcases (Nat.Prime.dvd_mul hq).mp hdvd with hdvd | h
    case inr =>
      rw [(Nat.prime_dvd_prime_iff_eq hq prime490463x).mp h]
      decide
    rcases (Nat.Prime.dvd_mul hq).mp hdvd with hdvd | h
    case inr =>
      rw [(Nat.prime_dvd_prime_iff_eq hq prime65537x).mp h]
      decide
    rcases (Nat.Prime.dvd_mul hq).mp hdvd with hdvd | h
    case inr =>
      rw [(Nat.prime_dvd_prime_iff_eq hq (by norm_num)).mp h]
      decide
    rcases (Nat.Prime.dvd_mul hq).mp hdvd with hdvd | h
    case inr =>
      rw [(Nat.prime_dvd_prime_iff_eq hq (by norm_num)).mp h]
      decide
    rcases (Nat.Prime.dvd_mul hq).mp hdvd with hdvd | h
    case inr =>
      rw [(Nat.prime_dvd_prime_iff_eq hq (by norm_num)).mp h]
      decide
    rcases (Nat.Prime.dvd_mul hq).mp hdvd with hdvd | h
    case inr =>
      rw [(Nat.prime_dvd_prime_iff_eq hq (by norm_num)).mp h]
      decide
    rcases (Nat.Prime.dvd_mul hq).mp hdvd with hdvd | h
    case inr =>
      rw [(Nat.prime_dvd_prime_iff_eq hq (by norm_num)).mp h]
      decide
    rcases (Nat.Prime.dvd_mul hq).mp hdvd with hdvd | h
    case inr =>
      rw [(Nat.prime_dvd_prime_iff_eq hq (by norm_num)).mp h]
      decide
    rcases (Nat.Prime.dvd_mul hq).mp hdvd with hdvd | h
    case inr =>
      rw [(Nat.prime_dvd_prime_iff_eq hq (by norm_num)).mp h]
      decide
    rw [(Nat.prime_dvd_prime_iff_eq hq (by norm_num)).mp hdvd]
    decide
  · decide
  · decide

theorem p256P_prime : Nat.Prime p256P := prime97853951x

theorem pow_sqrtExp_sq {c : Nat} (hqr : ∃ s, s * s % p256P = c % p256P) :
    c ^ p256SqrtExp * c ^ p256SqrtExp % p256P = c % p256P := by
  haveI : Fact (Nat.Prime p256P) := ⟨p256P_prime⟩
  obtain ⟨s, hs⟩ := hqr
  have hcast : ((s * s : Nat) : ZMod p256P) = ((c : Nat) : ZMod p256P) :=
    (ZMod.natCast_eq_natCast_iff' _ _ _).mpr hs
  rw [← ZMod.natCast_eq_natCast_iff']
  push_cast
  push_cast at hcast
  rw [← pow_add, ← hcast]
  by_cases hz : (s : ZMod p256P) = 0
  · rw [hz]
    rw [mul_zero, zero_pow (by decide : p256SqrtExp + p256SqrtExp ≠ 0)]
  · have h4 : p256SqrtExp + p256SqrtExp + (p256SqrtExp + p256SqrtExp) = (p256P - 1) + 2 := by decide
    rw [← pow_two, ← pow_mul, two_mul, h4, pow_add, ZMod.pow_card_sub_one_eq_one hz, one_mul]

theorem beToNat_foldl_acc (l : List Nat) : ∀ acc : Nat,
    List.foldl (fun a b => a * 256 + b) acc l =
      acc * 256 ^ l.length + Nat.ofDigits 256 l.reverse := by
  induction l with
  | nil => intro acc; simp [Nat.ofDigits_nil]
  | cons a l ih =>
    intro acc
    simp only [List.foldl_cons, ih, List.reverse_cons, Nat.ofDigits_append,
      Nat.ofDigits_singleton, List.length_cons, List.length_reverse]
    ring

theorem beToNat_eq_ofDigits (l : List Nat) : beToNat l = Nat.ofDigits 256 l.reverse := by
  have h := beToNat_foldl_acc l 0
  simpa [beToNat] using h

theorem natBytesAux_eq_digits : ∀ fuel x : Nat, x ≤ fuel →
    natBytesAux fuel x = (Nat.digits 256 x).reverse
  | 0, 0, _ => by simp [natBytesAux]
  | 0, x + 1, h => absurd h (by omega)
  | fuel + 1, x, h => by
    show (if x = 0 then [] else natBytesAux fuel (x / 256) ++ [x % 256]) =
      (Nat.digits 256 x).reverse
    by_cases hx : x = 0
    · simp [hx]
    · have hdig := Nat.digits_def' (b := 256) (by norm_num) (Nat.pos_of_ne_zero hx)
      rw [if_neg hx, hdig, List.reverse_cons,
        natBytesAux_eq_digits fuel (x / 256)
          (by have := Nat.div_lt_self (Nat.pos_of_ne_zero hx) (by norm_num : (1:Nat) < 256); omega)]

theorem natBytes_eq_digits (x : Nat) : natBytes x = (Nat.digits 256 x).reverse :=
  natBytesAux_eq_digits x x le_rfl

theorem natBytes_beToNat (l : List Nat) (hl : ∀ b ∈ l, b < 256) :
    natBytes (beToNat l) = l.dropWhile (fun b => b == 0) := by
  induction l with
  | nil => simp [beToNat, natBytes, natBytesAux]
  | cons a l ih =>
    by_cases ha : a = 0
    · subst ha
      have hstep : beToNat (0 :: l) = beToNat l := by simp [beToNat]
      rw [hstep, ih (fun b hb => hl b (List.mem_cons_of_mem _ hb))]
      simp [List.dropWhile_cons]
    · have hdw : (a :: l).dropWhile (fun b => b == 0) = a :: l := by
        simp [List.dropWhile_cons, ha]
      rw [hdw, natBytes_eq_digits, beToNat_eq_ofDigits, List.reverse_cons]
      rw [Nat.digits_ofDigits 256 (by norm_num) (l.reverse ++ [a])
        (by
          intro b hb
          rcases List.mem_append.mp hb with hb | hb
          · exact hl b (List.mem_cons_of_mem _ (List.mem_reverse.mp hb))
          · rcases List.mem_singleton.mp hb with rfl
            exact hl _ (List.mem_cons_self _ _))
        (fun _ => by rw [List.getLast_concat]; exact ha)]
      simp

theorem leftPad_dropWhile (l : List Nat) :
    leftPad l.length (l.dropWhile fun b => b == 0) = l := by
  have hsplit := List.takeWhile_append_dropWhile (fun b : Nat => b == 0) l
  have htake : l.takeWhile (fun b => b == 0) =
      List.replicate (l.takeWhile fun b => b == 0).length 0 :=
    List.eq_replicate_length.mpr fun b hb => by simpa using List.mem_takeWhile_imp hb
  have hlen : (l.takeWhile fun b => b == 0).length + (l.dropWhile fun b => b == 0).length
      = l.length := by
    conv_rhs => rw [← hsplit]
    rw [List.length_append]
  unfold leftPad
  by_cases hc : (l.dropWhile fun b => b == 0).length < l.length
  · rw [if_pos hc]
    have hk : l.length - (l.dropWhile fun b => b == 0).length =
        (l.takeWhile fun b => b == 0).length := by omega
    rw [hk, ← htake, hsplit]
  · rw [if_neg hc]
    have hk : (l.takeWhile fun b => b == 0).length = 0 := by omega
    rw [List.length_eq_zero] at hk
    conv_rhs => rw [← hsplit]
    rw [hk, List.nil_append]

theorem leftPad_natBytes (l : List Nat) (h32 : l.length = 32) (hl : ∀ b ∈ l, b < 256) :
    leftPad 32 (natBytes (beToNat l)) = l := by
  rw [natBytes_beToNat l hl, ← h32, leftPad_dropWhile]

theorem dataOf_embedded (pre d : List Nat) (hpre : pre.length = 31 - d.length)
    (hd : d.length ≤ 30) (hallpre : ∀ b ∈ pre, b < 256) (halld : ∀ b ∈ d, b < 256) :
    dataOf (beToNat (pre ++ (d ++ [d.length]))) = some d := by
  have hlen : (pre ++ (d ++ [d.length])).length = 32 := by
    simp [hpre]
    omega
  have hall : ∀ b ∈ pre ++ (d ++ [d.length]), b < 256 := by
    intro b hb
    rcases List.mem_append.mp hb with h | h
    · exact hallpre b h
    · rcases List.mem_append.mp h with h | h
      · exact halld b h
      · rcases List.mem_singleton.mp h with rfl
        omega
  have hpad : leftPad 32 (natBytes (beToNat (pre ++ (d ++ [d.length])))) =
      pre ++ (d ++ [d.length]) :=
    leftPad_natBytes _ hlen hall
  have hcoord : coordLen = 32 := rfl
  have hgetD : (pre ++ (d ++ [d.length])).getD 31 0 = d.length := by
    have h1 : (pre ++ d).length = 31 := by simp [hpre]; omega
    have hassoc : pre ++ (d ++ [d.length]) = (pre ++ d) ++ [d.length] := by simp
    rw [hassoc, List.getD_eq_getElem?_getD, List.getElem?_append_right (by omega), h1]
    simp
  have he : embedLen = 30 := by decide
  simp only [dataOf, hcoord, hpad, hgetD, he]
  rw [if_neg (by omega)]
  have hdrop : 32 - d.length - 1 = pre.length := by omega
  rw [hdrop, List.drop_left]
  have htk : (d ++ [d.length]).take d.length = d := List.take_left d [d.length]
  rw [htk]

theorem genPointS_x {x : Nat} {ks : Nat → Nat} {pos : Nat} {pt : Nat × Nat} {posn : Nat}
    (h : genPointS x ks pos = (some pt, posn)) : pt.1 = x := by
  revert h
  unfold genPointS
  simp only []
  generalize y2Of x = y2
  generalize p256Sqrt y2 = y0
  generalize (if (byteAt ks pos).land 128 ≠ 0 then p256P - y0 else y0) = y
  intro h
  split at h
  · injection h with h1 h2
    injection h1 with h3
    rw [← h3]
  · injection h with h1 h2
    exact Option.noConfusion h1

/-- C1: for every byte string `d` with `len(d) ≤ EmbedLen() = 30` and every
keystream, whenever `Embed(d, keystream)` returns a point, calling `Data()` on
it returns exactly `d` with no error. -/
theorem c1_embed_data_roundtrip (d : List Nat) (ks : Nat → Nat) (fuel pos : Nat)
    (pt : Nat × Nat) (posn : Nat)
    (hb : ∀ b ∈ d, b < 256) (hlen : d.length ≤ embedLen)
    (h : embedAux ks (some d) fuel pos = (some pt, posn)) :
    dataOf pt.1 = some d := by
  induction fuel generalizing pos with
  | zero =>
    rw [embedAux] at h
    injection h with h1 h2
    exact Option.noConfusion h1
  | succ fuel ih =>
    rw [embedAux] at h
    split at h
    case _ pt2 posg hg =>
      injection h with h1 h2
      injection h1 with h1
      subst h1
      have hx := genPointS_x hg
      rw [hx]
      have hdl : min embedLen d.length = d.length := Nat.min_eq_right hlen
      have he : embedLen = 30 := by decide
      have hc : coordLen = 32 := rfl
      have hbs : embedBytes (some d) (randomBits256 ks pos) =
          (randomBits256 ks pos).take (32 - d.length - 1) ++ (d ++ [d.length]) := by
        simp only [embedBytes, hdl, hc, List.take_length, List.append_assoc]
      rw [hbs]
      have hlenbs : (randomBits256 ks pos).length = 32 := by
        simp [randomBits256]
      apply dataOf_embedded
      · rw [List.length_take, hlenbs]
        omega
      · omega
      · intro b hbmem
        have hbmem2 : b ∈ randomBits256 ks pos := List.take_subset _ _ hbmem
        simp only [randomBits256, List.mem_map] at hbmem2
        rcases hbmem2 with ⟨i, _, rfl⟩
        exact Nat.mod_lt _ (by norm_num)
      · exact hb
    case _ posg hg =>
      exact ih posg h

/-- C6: `Equal(P, Q)` returns true if and only if the coordinates are congruent
modulo `p` component-wise; in particular a point with unreduced coordinates
`x+p` compares equal to its reduced form. -/
theorem c6_equal_iff_congruent :
    (∀ a b : Int × Int, (equalP256 a b = true ↔
      (a.1 ≡ b.1 [ZMOD (p256P : Int)] ∧ a.2 ≡ b.2 [ZMOD (p256P : Int)]))) ∧
    (∀ x y : Int, equalP256 (x + p256P, y + p256P) (x, y) = true) := by
  constructor
  · intro a b
    simp only [equalP256, Bool.and_eq_true, beq_iff_eq]
    exact Iff.rfl
  · intro x y
    simp only [equalP256, Bool.and_eq_true, beq_iff_eq]
    constructor
    · simp [Int.add_emod]
    · simp [Int.add_emod]

/-- C9: on the identity point set by `Null()` (coordinates `(0,0)`), `Data()`
returns the empty byte string and no error: the zero x-coordinate is padded to
`coordLen` bytes, the length tag is 0, which never exceeds `EmbedLen()`. -/
theorem c9_null_data_empty : dataOf p256Null.1 = some [] := by decide

/-- C10: when `UnmarshalBinary` fails on a buffer with a nonzero body, the
receiver's coordinates have been overwritten with the result of decoding the
buffer (`nil` when the low-level parse fails), independently of the receiver's
prior value: the decode is not atomic. -/
theorem c10_unmarshal_overwrites (buf : List Nat) (st st2 : Option Nat × Option Nat)
    (_hlen : buf.length = 1 + 2 * coordLen) (hnz : bodyNonzero buf = true)
    (_herr : (unmarshalBinary buf st).2 = true) :
    (unmarshalBinary buf st).1 = unmarshalResultCoords buf ∧
    (unmarshalBinary buf st).1 = (unmarshalBinary buf st2).1 := by
  simp only [unmarshalBinary, unmarshalBinaryGen, unmarshalResultCoords, hnz, if_true]
  rcases h : ellipticUnmarshalGen isOnCurveP256 buf with _ | ⟨x, y⟩ <;> simp [h]

/-- Witness for C10 at the marker-5 generator buffer. -/
theorem c10_unmarshal_overwrites_witness :
    (c3c10Buf.length = 1 + 2 * coordLen ∧ bodyNonzero c3c10Buf = true ∧
      (unmarshalBinary c3c10Buf (some 9, some 9)).2 = true) ∧
    ((unmarshalBinary c3c10Buf (some 9, some 9)).1 = unmarshalResultCoords c3c10Buf ∧
      (unmarshalBinary c3c10Buf (some 9, some 9)).1 =
        (unmarshalBinary c3c10Buf (none, none)).1) :=
  ⟨⟨by decide, by decide, by decide⟩,
    c10_unmarshal_overwrites c3c10Buf (some 9, some 9) (none, none) (by decide) (by decide) (by decide)⟩

/-- C3 counterexample: a 65-byte buffer with marker byte 5 and the generator's
coordinates makes `UnmarshalBinary` fail although the decoded coordinates pass
`Valid()`, so the error is not returned "exactly when the decoded coordinates
fail Valid()". -/
theorem c3_unmarshal_counterexample :
    (unmarshalBinary c3c10Buf (some 7, some 7)).2 = true ∧
    bodyNonzero c3c10Buf = true ∧
    c3c10Buf.length = 1 + 2 * coordLen ∧
    beToNat ((c3c10Buf.drop 1).take coordLen) = p256Gx ∧
    beToNat (c3c10Buf.drop (1 + coordLen)) = p256Gy ∧
    validP256 p256Gx p256Gy = true := by
  refine ⟨by decide, by decide, by decide, by decide, by decide, by decide⟩

/-- C3 (amended): on a buffer of length `1 + 2*coordLen`, if every byte after
the marker is zero the point becomes the identity with no error and no on-curve
check (the result is the same for every on-curve predicate); otherwise the
invalid-point error is returned exactly when the provider's `Unmarshal` fails
(marker not 4, coordinate out of range, or off-curve) or the decoded
coordinates fail `Valid()`. -/
theorem c3_unmarshal_amended (oc : Nat → Nat → Bool) (buf : List Nat)
    (st : Option Nat × Option Nat) (_hlen : buf.length = 1 + 2 * coordLen) :
    (bodyNonzero buf = false → unmarshalBinaryGen oc buf st = ((some 0, some 0), false)) ∧
    (bodyNonzero buf = true →
      ((unmarshalBinaryGen oc buf st).2 = true ↔
        (ellipticUnmarshalGen oc buf = none ∨
         ∃ x y, ellipticUnmarshalGen oc buf = some (x, y) ∧ validGen oc x y = false))) := by
  constructor
  · intro hz
    simp [unmarshalBinaryGen, hz]
  · intro hnz
    simp only [unmarshalBinaryGen, hnz, if_true]
    rcases h : ellipticUnmarshalGen oc buf with _ | ⟨x, y⟩
    · simp [h]
    · simp only [h, Bool.not_eq_true']
      constructor
      · intro hv
        exact Or.inr ⟨x, y, rfl, hv⟩
      · rintro (hn | ⟨x1, y1, heq, hv⟩)
        · simp [h] at hn
        · injection heq with heq
          injection heq with he1 he2
          subst he1
          subst he2
          exact hv

/-- Witness for the amended C3 at the all-zero buffer. -/
theorem c3_unmarshal_amended_witness :
    ((List.replicate 65 0).length = 1 + 2 * coordLen ∧
      bodyNonzero (List.replicate 65 0) = false) ∧
    unmarshalBinaryGen isOnCurveP256 (List.replicate 65 0) (some 5, some 6) =
      ((some 0, some 0), false) :=
  ⟨⟨by decide, by decide⟩,
    (c3_unmarshal_amended isOnCurveP256 (List.replicate 65 0) (some 5, some 6) (by decide)).1 (by decide)⟩

/-- C4 counterexample: with the constant-1 keystream the first candidate of
`Embed(nil, ·)` fails the residue check, yet the final keystream position is 33,
not 32: the failing candidate consumed the 32 candidate bytes and one sign
byte. -/
theorem c4_sign_byte_counterexample : embedAux (fun _ => 1) none 1 0 = (none, 33) ∧ (33 : Nat) ≠ 32 :=
  ⟨by decide, by decide⟩

/-- C4 (amended): `genPoint` draws the sign byte in every call, before the
verification, so each candidate — successful or not — consumes exactly one sign
byte beyond the candidate bits. -/
theorem c4_sign_byte_always_drawn : ∀ (x : Nat) (ks : Nat → Nat) (pos : Nat),
    (genPointS x ks pos).2 = pos + 1 := by
  intro x ks pos
  unfold genPointS
  simp only []
  generalize y2Of x = y2
  generalize p256Sqrt y2 = y0
  generalize (if (byteAt ks pos).land 128 ≠ 0 then p256P - y0 else y0) = y
  split <;> rfl

/-- C5 failing input, demonstrating the claim's violation: `Clone` copies the
`*big.Int` pointers, so after cloning a point with an unreduced x-coordinate
`Gx+p`, calling `Equal` on the clone reduces the shared coordinate cell in
place and changes the original point's observable value. -/
theorem c5_clone_aliasing :
    (equalStore c5Store (cloneRefs ⟨0, 1⟩) ⟨2, 3⟩).2 = true ∧
    observeRefs (equalStore c5Store (cloneRefs ⟨0, 1⟩) ⟨2, 3⟩).1 ⟨0, 1⟩ ≠
      observeRefs c5Store ⟨0, 1⟩ := by
  refine ⟨by decide, by decide⟩

theorem toyAdd_null (P : Nat × Nat) : toyAdd P (0, 0) = P := by
  unfold toyAdd
  by_cases h : P = (0, 0)
  · rw [if_pos h, h]
  · rw [if_neg h, if_pos rfl]

theorem toy_h1 : ∀ P, validPt toyOps P = true →
    equalPt toyOps (toyOps.add P (0, 0)) P = true := by
  intro P _
  have h : toyOps.add P (0, 0) = P := toyAdd_null P
  rw [h]
  simp [equalPt]

theorem toy_h2 : ∀ P k, validPt toyOps P = true →
    toyOps.scalarMult P k = smulAdd toyOps.add k P := fun _ _ _ => rfl

theorem toy_ord : ∀ P, validPt toyOps P = true → smulAdd toyOps.add toyOps.n P = (0, 0) := by
  rintro ⟨x, y⟩ h
  rcases Bool.or_eq_true _ _ |>.mp h with hoc | hz
  · have key : ∀ a, a < 7 → ∀ b, b < 7 → toyIsOnCurve (a, b) = true →
        smulAdd toyAdd 6 (a, b) = (0, 0) := by decide
    have hx : x < 7 := by
      have := Bool.and_eq_true _ _ |>.mp (Bool.and_eq_true _ _ |>.mp hoc).1
      exact of_decide_eq_true this.1
    have hy : y < 7 := by
      have := Bool.and_eq_true _ _ |>.mp (Bool.and_eq_true _ _ |>.mp hoc).1
      exact of_decide_eq_true this.2
    exact key x hx y hy hoc
  · have : (x, y) = ((0 : Nat), (0 : Nat)) := of_decide_eq_true hz
    rw [this]
    decide

/-- C7: for every provider with standard short-Weierstrass semantics (adding
the identity encoding is neutral on valid points, `ScalarMult` is iterated
addition, and the group order `n` annihilates valid points) and every valid
point `P`, `Add(P, Null())` equals `P` under `Equal` and `Add(P, Neg(P))`
equals `Null()`, where `Neg` is scalar multiplication by `Neg(One())`. -/
theorem c7_identity_laws (C : CurveOps) (hn : 1 < C.n)
    (h1 : ∀ P, validPt C P = true → equalPt C (C.add P (0, 0)) P = true)
    (h2 : ∀ P k, validPt C P = true → C.scalarMult P k = smulAdd C.add k P)
    (h3 : ∀ P, validPt C P = true → smulAdd C.add C.n P = (0, 0))
    (P : Nat × Nat) (hP : validPt C P = true) :
    equalPt C (addPt C P p256Null) P = true ∧
    equalPt C (addPt C P (negPt C P)) p256Null = true := by
  constructor
  · exact h1 P hP
  · have hone : modIntOne C.n = ⟨1, C.n⟩ := by
      simp [modIntOne, Nat.mod_eq_of_lt hn]
    have hneg : (modIntNeg (modIntOne C.n)).V = C.n - 1 := by
      rw [hone]
      simp [modIntNeg, Nat.mod_eq_of_lt (by omega : C.n - 1 < C.n)]
    have hmul : negPt C P = smulAdd C.add (C.n - 1) P := by
      rw [negPt, hneg, h2 P (C.n - 1) hP]
    have hsucc : addPt C P (negPt C P) = smulAdd C.add (C.n - 1 + 1) P := by
      rw [hmul]
      rfl
    rw [hsucc, Nat.sub_add_cancel (by omega), h3 P hP]
    simp [equalPt, p256Null]

/-- Witness for C7 on the toy curve provider at the point `(1,1)`. -/
theorem c7_identity_laws_witness :
    (1 < toyOps.n ∧ validPt toyOps (1, 1) = true) ∧
    (equalPt toyOps (addPt toyOps (1, 1) p256Null) (1, 1) = true ∧
     equalPt toyOps (addPt toyOps (1, 1) (negPt toyOps (1, 1))) p256Null = true) :=
  ⟨⟨by decide, by decide⟩,
    c7_identity_laws toyOps (by decide) toy_h1 toy_h2 toy_ord (1, 1) (by decide)⟩

/-- C8 failing input, demonstrating the claim's violation: because
`Commitment.Add` builds its scalar with `Init64(1, big.NewInt(1))` — modulus 1 —
every committed scalar reduces to 0, so `Commit` over one generator and the
32-byte encoding of 1 yields the identity instead of `1·G`. -/
theorem c8_commit_scalar_bug :
    vcCommit toyOps [(1, 1)] [List.replicate 31 0 ++ [1]] = some (0, 0) ∧
    specVCSum toyOps [(1, 1)] [List.replicate 31 0 ++ [1]] = (1, 1) ∧
    ((0, 0) : Nat × Nat) ≠ (1, 1) := by
  refine ⟨by decide, by decide, by decide⟩

/-- C2: for every `c < p` that is a quadratic residue modulo the P-256 prime,
`sqrt(c)` returns `c` raised to `2^254 - 2^222 + 2^190 + 2^94` reduced mod `p`;
this exponent equals `(p+1)/4`, and the returned value squares back to `c`
modulo `p`. -/
theorem c2_sqrt_addition_chain (c : Nat) (hc : c < p256P)
    (hqr : ∃ s, s * s % p256P = c % p256P) :
    p256Sqrt c = c ^ p256SqrtExp % p256P ∧
    p256SqrtExp = (p256P + 1) / 4 ∧
    p256Sqrt c * p256Sqrt c % p256P = c := by
  refine ⟨p256Sqrt_eq_pow c, by decide, ?_⟩
  rw [p256Sqrt_eq_pow c, ← Nat.mul_mod, pow_sqrtExp_sq hqr]
  exact Nat.mod_eq_of_lt hc

/-- Witness for C2 at the residue 4 (a square of 2). -/
theorem c2_sqrt_addition_chain_witness :
    (4 < p256P ∧ 2 * 2 % p256P = 4 % p256P) ∧
    (p256Sqrt 4 = 4 ^ p256SqrtExp % p256P ∧
     p256SqrtExp = (p256P + 1) / 4 ∧
     p256Sqrt 4 * p256Sqrt 4 % p256P = 4) :=
  ⟨⟨by decide, by decide⟩, c2_sqrt_addition_chain 4 (by decide) ⟨2, by decide⟩⟩

/-- Witness for C1: embedding the byte string `[0xAB]` with the zero keystream
succeeds on the first iteration and `Data()` recovers `[0xAB]`. -/
theorem c1_embed_data_roundtrip_witness :
    ((171 : Nat) < 256 ∧ ([171] : List Nat).length ≤ embedLen ∧
      embedAux (fun _ => 0) (some [171]) 1 0 =
        (some (43777,
          81081500059477189692527347755334264767718905671823789534282136498617554876743),
          33)) ∧
    dataOf (43777,
        (81081500059477189692527347755334264767718905671823789534282136498617554876743
          : Nat)).1 = some [171] :=
  ⟨⟨by decide, by decide, by decide⟩,
    c1_embed_data_roundtrip [171] (fun _ => 0) 1 0
      (43777,
        81081500059477189692527347755334264767718905671823789534282136498617554876743)
      33 (by decide) (by decide) (by decide)⟩
